import Mathlib

/-!
Shallow embedding of the class-metadata decoder of `src/class.rs`
(dex-parser): the fixed-width class-directory records and their iterator,
the access-flag bit set, the variable-width class-data decoding and the
`Class` assembler, together with proofs of the specification claims.

Buffers are `List Nat` of byte values; `u32` values are `Nat` (every value
read from a buffer is below `2 ^ 32`); fallible operations return `Option`
or `Except Error`.
-/

namespace DexCore

/-- Machine `u32` (the crate's `uint` alias), embedded as `Nat`. -/
abbrev uint := Nat

/-- Modelled from the spec: the `NO_INDEX` sentinel is defined in the crate
root (`lib.rs`), which is not under `src/`; it is the dex format's reserved
"no index" value, the maximum representable `u32`. -/
def NO_INDEX : Nat := 0xffffffff

/-- Byte order configured for fixed-width reads (`super::Endian`). -/
inductive Endian where
  | little
  | big
deriving DecidableEq

/-- Error kinds surfaced by this module (`error::Error`, restricted to the
variants the embedded code produces: truncation from bounds-checked reads and
`InvalidId` with its message). -/
inductive Error where
  | Truncated
  | InvalidId (msg : String)
deriving DecidableEq

namespace AccessFlags

/-- `AccessFlags::PUBLIC` from the `bitflags!` block of `class.rs`. -/
def PUBLIC : Nat := 0x1

/-- `AccessFlags::PRIVATE`. -/
def PRIVATE : Nat := 0x2

/-- `AccessFlags::PROTECTED`. -/
def PROTECTED : Nat := 0x4

/-- `AccessFlags::STATIC`. -/
def STATIC : Nat := 0x8

/-- `AccessFlags::FINAL`. -/
def FINAL : Nat := 0x10

/-- `AccessFlags::INTERFACE`. -/
def INTERFACE : Nat := 0x200

/-- `AccessFlags::ABSTRACT`. -/
def ABSTRACT : Nat := 0x400

/-- `AccessFlags::SYNTHETIC`. -/
def SYNTHETIC : Nat := 0x1000

/-- The class-annotation flag bit (value `0x2000`). -/
def ANNOTATION : Nat := 0x2000

/-- `AccessFlags::ENUM`. -/
def ENUM : Nat := 0x4000

/-- `AccessFlags::all()`: the union of the ten known flag bits. -/
def ALL : Nat :=
  PUBLIC ||| PRIVATE ||| PROTECTED ||| STATIC ||| FINAL |||
  INTERFACE ||| ABSTRACT ||| SYNTHETIC ||| ANNOTATION ||| ENUM

/-- bitflags' `AccessFlags::from_bits`: succeeds iff every set bit of `raw`
is a known flag bit (on `u32` the check `bits & !all() == 0` is exactly
`raw &&& all() = raw`). -/
def from_bits (raw : Nat) : Option Nat :=
  if raw &&& ALL = raw then some raw else none

end AccessFlags

/-- Read one `u32` at `pos` honoring the byte order; fails when fewer than
four bytes remain (scroll's bounds-checked `pread_with::<u32>`). -/
def readU32 (e : Endian) (src : List Nat) (pos : Nat) : Option Nat :=
  if pos + 4 ≤ src.length then
    some (match e with
      | .little =>
          src.getD pos 0 + 256 * src.getD (pos + 1) 0 +
            65536 * src.getD (pos + 2) 0 + 16777216 * src.getD (pos + 3) 0
      | .big =>
          src.getD (pos + 3) 0 + 256 * src.getD (pos + 2) 0 +
            65536 * src.getD (pos + 1) 0 + 16777216 * src.getD pos 0)
  else none

/-- `ClassDefItem`: one fixed-width class-directory record, eight `u32`
fields in the order of `class.rs`. -/
structure ClassDefItem where
  class_idx : Nat
  access_flags : Nat
  superclass_idx : Nat
  interfaces_off : Nat
  source_file_idx : Nat
  annotations_off : Nat
  class_data_off : Nat
  static_values_off : Nat
deriving DecidableEq

/-- The derived `Pread` of `ClassDefItem`: eight consecutive `u32` reads,
total stride 32 bytes; fails (without a partial result) if any field read
crosses the end of the buffer. -/
def ClassDefItem.pread (e : Endian) (src : List Nat) (pos : Nat) :
    Option ClassDefItem :=
  match readU32 e src pos, readU32 e src (pos + 4), readU32 e src (pos + 8),
      readU32 e src (pos + 12), readU32 e src (pos + 16),
      readU32 e src (pos + 20), readU32 e src (pos + 24),
      readU32 e src (pos + 28) with
  | some a, some b, some c, some d, some f, some g, some h, some i =>
      some ⟨a, b, c, d, f, g, h, i⟩
  | _, _, _, _, _, _, _, _ => none

/-- State of `ClassDefItemIter`: shared buffer, scan offset, remaining
record count and configured byte order. -/
structure ClassDefItemIter where
  source : List Nat
  offset : Nat
  len : Nat
  endian : Endian
deriving DecidableEq

/-- `ClassDefItemIter::next`: the sequence ends when `len = 0`; otherwise a
record is read at `offset` with scroll's `gread_with`, which advances the
offset only on success (a failed read leaves it untouched), and `len` is
decremented unconditionally. -/
def ClassDefItemIter.next (s : ClassDefItemIter) :
    Option (Except Error ClassDefItem × ClassDefItemIter) :=
  if s.len = 0 then none
  else
    match ClassDefItem.pread s.endian s.source s.offset with
    | some item =>
        some (Except.ok item,
          { s with offset := s.offset + 32, len := s.len - 1 })
    | none =>
        some (Except.error Error.Truncated, { s with len := s.len - 1 })

/-- Drain the iterator, collecting the yielded items and the final state.
The fuel only bounds the recursion: `next` yields at most `len` items, so
`run` below instantiates the fuel with `len` and drains the sequence to its
end (`next` returning `none`). -/
def ClassDefItemIter.runAux :
    Nat → ClassDefItemIter → List (Except Error ClassDefItem) × ClassDefItemIter
  | 0, s => ([], s)
  | fuel + 1, s =>
    match s.next with
    | none => ([], s)
    | some (r, s2) =>
      let p := ClassDefItemIter.runAux fuel s2
      (r :: p.1, p.2)

/-- The complete sequence of items yielded by the iterator, with the state
left when the sequence has ended. -/
def ClassDefItemIter.run (s : ClassDefItemIter) :
    List (Except Error ClassDefItem) × ClassDefItemIter :=
  ClassDefItemIter.runAux s.len s

example :
    ClassDefItemIter.next ⟨List.replicate 16 0, 0, 2, Endian.little⟩
      = some (Except.error Error.Truncated,
          ⟨List.replicate 16 0, 0, 1, Endian.little⟩) := by rfl

example :
    (ClassDefItemIter.run ⟨List.replicate 64 1, 0, 2, Endian.little⟩).1.length
      = 2 := by decide

example : AccessFlags.ALL = 0x761F := by decide

/-- Modelled from the spec: scroll's `Uleb128::read` (the VarInt Reader,
outside this repository): each byte contributes its low seven bits, low
groups first; a clear top bit ends the value; at most five groups fit a
`u32`. `groups` counts the groups still allowed; reads past the end of the
buffer or needing a sixth group fail. -/
def ulebAux (src : List Nat) : Nat → Nat → Nat → Nat → Option (Nat × Nat)
  | _, _, _, 0 => none
  | pos, shift, acc, groups + 1 =>
    if pos < src.length then
      if src.getD pos 0 < 128 then
        some (acc + src.getD pos 0 % 128 * 2 ^ shift, pos + 1)
      else
        ulebAux src (pos + 1) (shift + 7) (acc + src.getD pos 0 % 128 * 2 ^ shift)
          groups
    else none

/-- Read one unsigned VarInt at `pos`, returning the value and the position
after its last byte. -/
def ulebRead (src : List Nat) (pos : Nat) : Option (Nat × Nat) :=
  ulebAux src pos 0 0 5

/-- A per-entry payload decoder (spec collaborator `decode_field` /
`decode_method`): given the resolved absolute index, the buffer and a
cursor, produce one entity and the cursor after it. -/
def Decoder (α : Type) : Type := Nat → List Nat → Nat → Option (α × Nat)

/-- Modelled from the spec: the Delta-Indexed Array Decoder
(`EncodedItemArray`, outside `src/`): read `n` entries, each one a VarInt
delta (absolute index for the first entry, previous index plus delta
afterwards) followed by the entry payload; any failure aborts the array. -/
def deltaArray (src : List Nat) (dec : Decoder α) :
    Nat → Nat → Nat → Option (List α × Nat)
  | 0, _, pos => some ([], pos)
  | n + 1, prev, pos =>
    match ulebRead src pos with
    | none => none
    | some d =>
      match dec (prev + d.1) src d.2 with
      | none => none
      | some a =>
        match deltaArray src dec n (prev + d.1) a.2 with
        | none => none
        | some rest => some (a.1 :: rest.1, rest.2)

/-- The `encoded_array!` macro of `class.rs`: a zero count yields `None`
without touching the buffer; a positive count decodes a delta-indexed array
of that many entries. -/
def encodedArray (src : List Nat) (dec : Decoder α) (size : Nat) (pos : Nat) :
    Option (Option (List α) × Nat) :=
  if size = 0 then some (none, pos)
  else (deltaArray src dec size 0 pos).map (fun p => (some p.1, p.2))

/-- `ClassDataItem`: the four optional member lists of a class body. -/
structure ClassDataItem (F M : Type) where
  static_fields : Option (List F)
  instance_fields : Option (List F)
  direct_methods : Option (List M)
  virtual_methods : Option (List M)
deriving DecidableEq

/-- `ClassDataItem::try_from_ctx`: four VarInt counts in the order
static fields, instance fields, direct methods, virtual methods, then the
four delta-indexed entry arrays in the same order (field decoder for the
first two, method decoder for the last two); returns the item together with
the number of bytes consumed. -/
def ClassDataItem.try_from_ctx (src : List Nat) (fdec : Decoder F)
    (mdec : Decoder M) : Option (ClassDataItem F M × Nat) :=
  match ulebRead src 0 with
  | none => none
  | some p1 =>
    match ulebRead src p1.2 with
    | none => none
    | some p2 =>
      match ulebRead src p2.2 with
      | none => none
      | some p3 =>
        match ulebRead src p3.2 with
        | none => none
        | some p4 =>
          match encodedArray src fdec p1.1 p4.2 with
          | none => none
          | some a1 =>
            match encodedArray src fdec p2.1 a1.2 with
            | none => none
            | some a2 =>
              match encodedArray src mdec p3.1 a2.2 with
              | none => none
              | some a3 =>
                match encodedArray src mdec p4.1 a3.2 with
                | none => none
                | some a4 => some (⟨a1.1, a2.1, a3.1, a4.1⟩, a4.2)

/-- The collaborator surface of `Dex<T>` consumed by `Class::try_from_dex`.
Modelled from the spec: these lookups live outside `src/`; each is an
abstract function with the contract of the spec's external interfaces
(section 6). -/
structure DexAPI (Ty Fld Mth EF EM Val Ann Str : Type) where
  get_type : Nat → Except Error Ty
  get_class_data : Nat → Except Error (Option (ClassDataItem EF EM))
  get_field : EF → Except Error Fld
  get_method : EM → Except Error Mth
  get_static_values : Nat → Except Error (List Val)
  get_annotations_directory_item : Nat → Except Error (Option Ann)
  get_interfaces : Nat → Except Error (Option (List Ty))
  get_source_file : Nat → Except Error (Option Str)

/-- The `try_from_item!` macro: resolve each encoded entry through `f`,
aborting on the first failure; an absent array means an empty list. -/
def tryFromItem (items : Option (List ε)) (f : ε → Except Error α) :
    Except Error (List α) :=
  match items with
  | some l => l.mapM f
  | none => pure []

/-- The assembled `Class` entity of `class.rs`, with the externally-owned
entity types abstract. -/
structure Class (Ty Fld Mth Ann Str Val : Type) where
  id : Nat
  jtype : Ty
  access_flags : Nat
  super_class : Option Nat
  interfaces : Option (List Ty)
  annotations : Option Ann
  source_file : Option Str
  static_fields : List Fld
  instance_fields : List Fld
  direct_methods : List Mth
  virtual_methods : List Mth
  static_values : List Val
deriving DecidableEq

/-- The closure passed to `.map` on the decoded class data in
`Class::try_from_dex`: resolve the four member lists through the field and
method lookups; an absent class body (`None`) yields four empty lists
(`unwrap_or_else`). -/
def resolveClassData (dex : DexAPI Ty Fld Mth EF EM Val Ann Str)
    (cd : Option (ClassDataItem EF EM)) :
    Except Error (List Fld × List Fld × List Mth × List Mth) :=
  match cd with
  | some c =>
    match tryFromItem c.static_fields dex.get_field with
    | .error e => .error e
    | .ok sf =>
      match tryFromItem c.instance_fields dex.get_field with
      | .error e => .error e
      | .ok inf =>
        match tryFromItem c.direct_methods dex.get_method with
        | .error e => .error e
        | .ok dm =>
          match tryFromItem c.virtual_methods dex.get_method with
          | .error e => .error e
          | .ok vm => .ok (sf, inf, dm, vm)
  | none => .ok ([], [], [], [])

/-- `Class::try_from_dex`: resolve the type, the class body (body offset and
member lists), the static values, the annotations, the super-class option
(the comparison with the sentinel as written in the source), the interfaces,
the validated access flags and the source file, in the evaluation order of
the source, and build the `Class`. -/
def Class.try_from_dex (dex : DexAPI Ty Fld Mth EF EM Val Ann Str)
    (class_def : ClassDefItem) : Except Error (Class Ty Fld Mth Ann Str Val) :=
  match dex.get_type class_def.class_idx with
  | .error e => .error e
  | .ok jtype =>
    match dex.get_class_data class_def.class_data_off with
    | .error e => .error e
    | .ok cd =>
      match resolveClassData dex cd with
      | .error e => .error e
      | .ok lists =>
        match dex.get_static_values class_def.static_values_off with
        | .error e => .error e
        | .ok static_values =>
          match dex.get_annotations_directory_item class_def.annotations_off with
          | .error e => .error e
          | .ok annotations =>
            match dex.get_interfaces class_def.interfaces_off with
            | .error e => .error e
            | .ok interfaces =>
              match AccessFlags.from_bits class_def.access_flags with
              | none =>
                  .error (Error.InvalidId
                    ("Invalid Access flags in class "
                      ++ toString class_def.class_idx))
              | some access_flags =>
                match dex.get_source_file class_def.source_file_idx with
                | .error e => .error e
                | .ok source_file =>
                    .ok ⟨class_def.class_idx, jtype, access_flags,
                      (if class_def.superclass_idx = NO_INDEX then
                        some class_def.superclass_idx
                      else none),
                      interfaces, annotations, source_file,
                      lists.1, lists.2.1, lists.2.2.1, lists.2.2.2,
                      static_values⟩

/-- Rust's `Iterator::chain` of two slice iterators, as used by
`Class::fields` and `Class::methods`. -/
structure Chain (α : Type) where
  first : List α
  second : List α
deriving DecidableEq

/-- `Chain::next`: drain the first iterator, then the second. -/
def Chain.next : Chain α → Option (α × Chain α)
  | ⟨x :: xs, ys⟩ => some (x, ⟨xs, ys⟩)
  | ⟨[], y :: ys⟩ => some (y, ⟨[], ys⟩)
  | ⟨[], []⟩ => none

/-- Drain a chained iterator (fuel bounds the recursion; `collect` below
uses the total number of elements, after which `next` is exhausted). -/
def Chain.drainAux : Nat → Chain α → List α
  | 0, _ => []
  | fuel + 1, c =>
    match Chain.next c with
    | none => []
    | some p => p.1 :: Chain.drainAux fuel p.2

/-- The full sequence of elements yielded by a chained iterator. -/
def Chain.collect (c : Chain α) : List α :=
  Chain.drainAux (c.first.length + c.second.length) c

/-- `Class::fields`: the chained iterator over static then instance
fields. -/
def Class.fields (c : Class Ty Fld Mth Ann Str Val) : Chain Fld :=
  ⟨c.static_fields, c.instance_fields⟩

/-- `Class::methods`: the chained iterator over direct then virtual
methods. -/
def Class.methods (c : Class Ty Fld Mth Ann Str Val) : Chain Mth :=
  ⟨c.direct_methods, c.virtual_methods⟩

/-- A concrete collaborator assignment over `Nat` entities: every lookup
succeeds, absent-style lookups return their absence value (meeting the
spec's offset-0 contracts), entries resolve to themselves. -/
def dexTriv : DexAPI Nat Nat Nat Nat Nat Nat Nat Nat where
  get_type := fun _ => .ok 0
  get_class_data := fun _ => .ok none
  get_field := fun e => .ok e
  get_method := fun e => .ok e
  get_static_values := fun _ => .ok []
  get_annotations_directory_item := fun _ => .ok none
  get_interfaces := fun _ => .ok none
  get_source_file := fun _ => .ok none

/-- A collaborator assignment whose static-value lookup returns a
one-element encoded array for every nonzero offset (and the empty array at
the absent sentinel 0, as the spec's contract requires). -/
def dexOneStatic : DexAPI Nat Nat Nat Nat Nat Nat Nat Nat :=
  { dexTriv with
    get_static_values := fun off => if off = 0 then .ok [] else .ok [0] }

/-- A directory record whose superclass index is the sentinel. -/
def cdNoSuper : ClassDefItem := ⟨1, 1, NO_INDEX, 0, 0, 0, 0, 0⟩

/-- A directory record with a real (non-sentinel) superclass index. -/
def cdHasSuper : ClassDefItem := ⟨1, 1, 3, 0, 0, 0, 0, 0⟩

/-- A directory record carrying the unknown access-flag bit `0x20`. -/
def cdBadFlags : ClassDefItem := ⟨9, 0x20, 3, 0, 0, 0, 0, 0⟩

/-- A directory record with no class body and a nonzero static-values
offset. -/
def cdStaticsOnly : ClassDefItem := ⟨7, 1, 3, 0, 0, 0, 0, 5⟩

/-- A plain directory record: everything absent, public flags. -/
def cdPlain : ClassDefItem := ⟨2, 1, 3, 0, 0, 0, 0, 0⟩

/-- A bounds-checked one-byte payload decoder, used to witness the
class-data theorems: consume the byte under the cursor. -/
def byteEntry : Decoder Nat :=
  fun _ src pos =>
    if pos < src.length then some (src.getD pos 0, pos + 1) else none

/-- A concrete class-data buffer: counts 1, 0, 0, 0 then one entry of one
delta byte and one payload byte. -/
def srcBodyW : List Nat := [1, 0, 0, 0, 3, 9]

example :
    ClassDataItem.try_from_ctx srcBodyW byteEntry byteEntry
      = some (⟨some [9], none, none, none⟩, 6) := by rfl

example :
    (Class.try_from_dex dexTriv cdNoSuper).toOption.map Class.super_class
      = some (some NO_INDEX) := by rfl

example :
    (Class.try_from_dex dexTriv cdHasSuper).toOption.map Class.super_class
      = some none := by rfl

example :
    Class.try_from_dex dexTriv cdPlain
      = .ok ⟨2, 0, 1, none, none, none, none, [], [], [], [], []⟩ := by rfl

example :
    (Class.try_from_dex dexOneStatic cdStaticsOnly).toOption.map
      (fun c => (c.static_values.length, c.static_fields.length))
      = some (1, 0) := by rfl

example :
    Class.try_from_dex dexTriv cdBadFlags
      = .error (Error.InvalidId "Invalid Access flags in class 9") := by rfl

/-- A decode step that moves the cursor forward, stays within the buffer,
and depends only on the bytes it consumed: appending anything after the
consumed prefix leaves its result unchanged. -/
def Consumes (f : List Nat → Nat → Option (α × Nat)) : Prop :=
  ∀ src pos p, f src pos = some p →
    pos ≤ p.2 ∧ p.2 ≤ src.length ∧
    ∀ ext, f (src.take p.2 ++ ext) pos = some p

lemma getD_prefix {src : List Nat} (ext : List Nat) {pos n : Nat}
    (hpos : pos < n) (hn : n ≤ src.length) :
    (src.take n ++ ext).getD pos 0 = src.getD pos 0 := by
  have hlt : pos < (src.take n).length := by
    rw [List.length_take]; omega
  rw [List.getD_eq_getElem?_getD, List.getD_eq_getElem?_getD,
    List.getElem?_append, if_pos hlt, List.getElem?_take, if_pos hpos]

lemma length_take_append {src : List Nat} (ext : List Nat) {n : Nat}
    (hn : n ≤ src.length) : n ≤ (src.take n ++ ext).length := by
  rw [List.length_append, List.length_take]; omega

lemma take_split {α : Type} (src : List α) {a b : Nat} (hab : a ≤ b)
    (ext : List α) :
    src.take b ++ ext = src.take a ++ ((src.take b).drop a ++ ext) := by
  conv_lhs => rw [← List.take_append_drop a (src.take b)]
  rw [List.take_take, Nat.min_eq_left hab, List.append_assoc]

lemma ulebAux_consumes (src : List Nat) :
    ∀ (groups pos shift acc : Nat) (p : Nat × Nat),
      ulebAux src pos shift acc groups = some p →
      pos < p.2 ∧ p.2 ≤ src.length ∧
      ∀ ext, ulebAux (src.take p.2 ++ ext) pos shift acc groups = some p := by
  intro groups
  induction groups with
  | zero => intro pos shift acc p h; exact absurd h (by simp [ulebAux])
  | succ n ih =>
    intro pos shift acc p h
    rw [ulebAux] at h
    by_cases hb : pos < src.length
    · rw [if_pos hb] at h
      by_cases hc : src.getD pos 0 < 128
      · rw [if_pos hc] at h
        injection h with h
        subst h
        refine ⟨by omega, by omega, fun ext => ?_⟩
        rw [ulebAux,
          if_pos (Nat.lt_of_lt_of_le (by omega)
            (length_take_append ext (by omega))),
          getD_prefix ext (by omega) (by omega), if_pos hc]
      · rw [if_neg hc] at h
        obtain ⟨h1, h2, h3⟩ := ih (pos + 1) (shift + 7)
          (acc + src.getD pos 0 % 128 * 2 ^ shift) p h
        refine ⟨by omega, h2, fun ext => ?_⟩
        rw [ulebAux,
          if_pos (Nat.lt_of_lt_of_le (by omega) (length_take_append ext h2)),
          getD_prefix ext (by omega) h2, if_neg hc]
        exact h3 ext
    · rw [if_neg hb] at h
      exact absurd h (by simp)

lemma ulebRead_consumes : Consumes ulebRead := by
  intro src pos p h
  obtain ⟨h1, h2, h3⟩ := ulebAux_consumes src 5 pos 0 0 p h
  exact ⟨by omega, h2, h3⟩

lemma deltaArray_consumes {α : Type} (src : List Nat) (dec : Decoder α)
    (hdec : ∀ i, Consumes (dec i)) :
    ∀ (n prev pos : Nat) (q : List α × Nat),
      deltaArray src dec n prev pos = some q →
      pos ≤ q.2 ∧ (n = 0 → q.2 = pos) ∧ (n ≠ 0 → q.2 ≤ src.length) ∧
      ∀ ext, deltaArray (src.take q.2 ++ ext) dec n prev pos = some q := by
  intro n
  induction n with
  | zero =>
    intro prev pos q h
    rw [deltaArray] at h
    injection h with h
    subst h
    exact ⟨le_rfl, fun _ => rfl, fun h0 => absurd rfl h0,
      fun ext => rfl⟩
  | succ n ih =>
    intro prev pos q h
    rw [deltaArray] at h
    split at h
    next => exact absurd h (by simp)
    next d hu =>
      split at h
      next => exact absurd h (by simp)
      next a hd =>
        split at h
        next => exact absurd h (by simp)
        next rest hr =>
          injection h with h
          subst h
          obtain ⟨hu1, hu2, hu3⟩ := ulebRead_consumes src pos d hu
          obtain ⟨hd1, hd2, hd3⟩ := hdec (prev + d.1) src d.2 a hd
          obtain ⟨hr1, hr2, hr3, hr4⟩ := ih (prev + d.1) a.2 rest hr
          have hq2 : rest.2 ≤ src.length := by
            rcases Nat.eq_zero_or_pos n with h0 | h0
            · rw [hr2 h0]; exact hd2
            · exact hr3 (by omega)
          have hdp : d.2 ≤ rest.2 := le_trans hd1 hr1
          refine ⟨by omega, by omega, fun _ => hq2, fun ext => ?_⟩
          have s1 : ulebRead (src.take rest.2 ++ ext) pos = some d := by
            rw [take_split src hdp ext]; exact hu3 _
          have s2 : dec (prev + d.1) (src.take rest.2 ++ ext) d.2 = some a := by
            rw [take_split src hr1 ext]; exact hd3 _
          have s3 : deltaArray (src.take rest.2 ++ ext) dec n (prev + d.1) a.2
              = some rest := hr4 ext
          simp only [deltaArray, s1, s2, s3]

lemma encodedArray_consumes {α : Type} (src : List Nat) (dec : Decoder α)
    (hdec : ∀ i, Consumes (dec i)) (size pos : Nat)
    (q : Option (List α) × Nat) (h : encodedArray src dec size pos = some q) :
    pos ≤ q.2 ∧ (q.2 = pos ∨ q.2 ≤ src.length) ∧
    ∀ ext, encodedArray (src.take q.2 ++ ext) dec size pos = some q := by
  rw [encodedArray] at h
  by_cases hs : size = 0
  · rw [if_pos hs] at h
    injection h with h
    subst h
    exact ⟨le_rfl, Or.inl rfl, fun ext => by rw [encodedArray, if_pos hs]⟩
  · rw [if_neg hs] at h
    cases hq : deltaArray src dec size 0 pos with
    | none => rw [hq] at h; exact absurd h (by simp)
    | some r =>
      rw [hq] at h
      injection h with h
      subst h
      obtain ⟨h1, _, h3, h4⟩ := deltaArray_consumes src dec hdec size 0 pos r hq
      refine ⟨h1, Or.inr (h3 hs), fun ext => ?_⟩
      rw [encodedArray, if_neg hs, h4 ext]
      rfl

lemma byteEntry_consumes : ∀ i, Consumes (byteEntry i) := by
  intro i src pos p h
  simp only [byteEntry] at h
  by_cases hp : pos < src.length
  · rw [if_pos hp] at h
    injection h with h
    subst h
    refine ⟨Nat.le_succ pos, hp, fun ext => ?_⟩
    simp only [byteEntry]
    rw [if_pos (Nat.lt_of_lt_of_le (Nat.lt_succ_self pos)
        (length_take_append ext hp)),
      getD_prefix ext (Nat.lt_succ_self pos) hp]
  · rw [if_neg hp] at h
    exact absurd h (by simp)

/-- C8: decoding a class-data item reads the four VarInt counts in the order
static-field, instance-field, direct-method, virtual-method count, then the
four delta-indexed entry arrays in the same order (the field decoder for the
first two, the method decoder for the last two), and the reported consumed
size is exact: it never exceeds the buffer, and the decode result depends
only on the consumed prefix (any bytes appended after it leave the item and
the size unchanged), so the structure is self-delimiting. -/
theorem c8_class_data_decode_self_delimiting {F M : Type}
    (fdec : Decoder F) (mdec : Decoder M)
    (hf : ∀ i, Consumes (fdec i)) (hm : ∀ i, Consumes (mdec i))
    (src : List Nat) (item : ClassDataItem F M) (n : Nat)
    (h : ClassDataItem.try_from_ctx src fdec mdec = some (item, n)) :
    n ≤ src.length ∧
    (∀ ext, ClassDataItem.try_from_ctx (src.take n ++ ext) fdec mdec
      = some (item, n)) ∧
    ∃ p1 p2 p3 p4 a1 a2 a3 a4,
      ulebRead src 0 = some p1 ∧ ulebRead src p1.2 = some p2 ∧
      ulebRead src p2.2 = some p3 ∧ ulebRead src p3.2 = some p4 ∧
      encodedArray src fdec p1.1 p4.2 = some a1 ∧
      encodedArray src fdec p2.1 a1.2 = some a2 ∧
      encodedArray src mdec p3.1 a2.2 = some a3 ∧
      encodedArray src mdec p4.1 a3.2 = some a4 ∧
      item = ⟨a1.1, a2.1, a3.1, a4.1⟩ ∧ n = a4.2 := by
  rw [ClassDataItem.try_from_ctx] at h
  split at h
  next => exact absurd h (by simp)
  next p1 h1 =>
  split at h
  next => exact absurd h (by simp)
  next p2 h2 =>
  split at h
  next => exact absurd h (by simp)
  next p3 h3 =>
  split at h
  next => exact absurd h (by simp)
  next p4 h4 =>
  split at h
  next => exact absurd h (by simp)
  next a1 g1 =>
  split at h
  next => exact absurd h (by simp)
  next a2 g2 =>
  split at h
  next => exact absurd h (by simp)
  next a3 g3 =>
  split at h
  next => exact absurd h (by simp)
  next a4 g4 =>
  injection h with h
  rw [Prod.mk.injEq] at h
  obtain ⟨hi, hn⟩ := h
  subst hi
  subst hn
  obtain ⟨u1a, u1b, u1c⟩ := ulebRead_consumes src 0 p1 h1
  obtain ⟨u2a, u2b, u2c⟩ := ulebRead_consumes src p1.2 p2 h2
  obtain ⟨u3a, u3b, u3c⟩ := ulebRead_consumes src p2.2 p3 h3
  obtain ⟨u4a, u4b, u4c⟩ := ulebRead_consumes src p3.2 p4 h4
  obtain ⟨e1a, e1b, e1c⟩ := encodedArray_consumes src fdec hf p1.1 p4.2 a1 g1
  obtain ⟨e2a, e2b, e2c⟩ := encodedArray_consumes src fdec hf p2.1 a1.2 a2 g2
  obtain ⟨e3a, e3b, e3c⟩ := encodedArray_consumes src mdec hm p3.1 a2.2 a3 g3
  obtain ⟨e4a, e4b, e4c⟩ := encodedArray_consumes src mdec hm p4.1 a3.2 a4 g4
  have hb1 : a1.2 ≤ src.length := by
    rcases e1b with hx | hx
    · rw [hx]; exact u4b
    · exact hx
  have hb2 : a2.2 ≤ src.length := by
    rcases e2b with hx | hx
    · rw [hx]; exact hb1
    · exact hx
  have hb3 : a3.2 ≤ src.length := by
    rcases e3b with hx | hx
    · rw [hx]; exact hb2
    · exact hx
  have hb4 : a4.2 ≤ src.length := by
    rcases e4b with hx | hx
    · rw [hx]; exact hb3
    · exact hx
  refine ⟨hb4, fun ext => ?_,
    p1, p2, p3, p4, a1, a2, a3, a4, h1, h2, h3, h4, g1, g2, g3, g4, rfl, rfl⟩
  have s1 : ulebRead (src.take a4.2 ++ ext) 0 = some p1 := by
    rw [take_split src (show p1.2 ≤ a4.2 by omega) ext]; exact u1c _
  have s2 : ulebRead (src.take a4.2 ++ ext) p1.2 = some p2 := by
    rw [take_split src (show p2.2 ≤ a4.2 by omega) ext]; exact u2c _
  have s3 : ulebRead (src.take a4.2 ++ ext) p2.2 = some p3 := by
    rw [take_split src (show p3.2 ≤ a4.2 by omega) ext]; exact u3c _
  have s4 : ulebRead (src.take a4.2 ++ ext) p3.2 = some p4 := by
    rw [take_split src (show p4.2 ≤ a4.2 by omega) ext]; exact u4c _
  have s5 : encodedArray (src.take a4.2 ++ ext) fdec p1.1 p4.2 = some a1 := by
    rw [take_split src (show a1.2 ≤ a4.2 by omega) ext]; exact e1c _
  have s6 : encodedArray (src.take a4.2 ++ ext) fdec p2.1 a1.2 = some a2 := by
    rw [take_split src (show a2.2 ≤ a4.2 by omega) ext]; exact e2c _
  have s7 : encodedArray (src.take a4.2 ++ ext) mdec p3.1 a2.2 = some a3 := by
    rw [take_split src (show a3.2 ≤ a4.2 by omega) ext]; exact e3c _
  have s8 : encodedArray (src.take a4.2 ++ ext) mdec p4.1 a3.2 = some a4 :=
    e4c ext
  simp only [ClassDataItem.try_from_ctx, s1, s2, s3, s4, s5, s6, s7, s8]

lemma readU32_total (e : Endian) (src : List Nat) (pos : Nat)
    (h : pos + 4 ≤ src.length) : ∃ v, readU32 e src pos = some v := by
  rw [readU32.eq_def, if_pos h]
  exact ⟨_, rfl⟩

lemma ClassDefItem.pread_total (e : Endian) (src : List Nat) (pos : Nat)
    (h : pos + 32 ≤ src.length) :
    ∃ it, ClassDefItem.pread e src pos = some it := by
  obtain ⟨v1, r1⟩ := readU32_total e src pos (by omega)
  obtain ⟨v2, r2⟩ := readU32_total e src (pos + 4) (by omega)
  obtain ⟨v3, r3⟩ := readU32_total e src (pos + 8) (by omega)
  obtain ⟨v4, r4⟩ := readU32_total e src (pos + 12) (by omega)
  obtain ⟨v5, r5⟩ := readU32_total e src (pos + 16) (by omega)
  obtain ⟨v6, r6⟩ := readU32_total e src (pos + 20) (by omega)
  obtain ⟨v7, r7⟩ := readU32_total e src (pos + 24) (by omega)
  obtain ⟨v8, r8⟩ := readU32_total e src (pos + 28) (by omega)
  rw [ClassDefItem.pread, r1, r2, r3, r4, r5, r6, r7, r8]
  exact ⟨_, rfl⟩

lemma ClassDefItemIter.runAux_count :
    ∀ (fuel : Nat) (s : ClassDefItemIter), s.len = fuel →
      (ClassDefItemIter.runAux fuel s).1.length = fuel ∧
      (ClassDefItemIter.runAux fuel s).2.len = 0 := by
  intro fuel
  induction fuel with
  | zero =>
    intro s hs
    rw [ClassDefItemIter.runAux]
    exact ⟨rfl, hs⟩
  | succ n ih =>
    intro s hs
    rw [ClassDefItemIter.runAux, ClassDefItemIter.next,
      if_neg (show ¬ s.len = 0 by omega)]
    cases hp : ClassDefItem.pread s.endian s.source s.offset with
    | some item =>
      obtain ⟨ha, hb⟩ := ih { s with offset := s.offset + 32, len := s.len - 1 }
        (by simp [hs])
      simp [hp, ha, hb]
    | none =>
      obtain ⟨ha, hb⟩ := ih { s with len := s.len - 1 } (by simp [hs])
      simp [hp, ha, hb]

lemma ClassDefItemIter.runAux_ok :
    ∀ (fuel : Nat) (s : ClassDefItemIter), s.len = fuel →
      s.offset + 32 * s.len ≤ s.source.length →
      ∀ r ∈ (ClassDefItemIter.runAux fuel s).1, ∃ it, r = Except.ok it := by
  intro fuel
  induction fuel with
  | zero =>
    intro s hs hb r hr
    rw [ClassDefItemIter.runAux] at hr
    exact absurd hr (by simp)
  | succ n ih =>
    intro s hs hb r hr
    obtain ⟨it, hit⟩ := ClassDefItem.pread_total s.endian s.source s.offset
      (by omega)
    rw [ClassDefItemIter.runAux, ClassDefItemIter.next,
      if_neg (show ¬ s.len = 0 by omega)] at hr
    simp only [hit, List.mem_cons] at hr
    rcases hr with rfl | hr
    · exact ⟨it, rfl⟩
    · exact ih { s with offset := s.offset + 32, len := s.len - 1 }
        (by simp [hs]) (by simp; omega) r hr

lemma Chain.drainAux_concat {α : Type} :
    ∀ (fuel : Nat) (a b : List α), a.length + b.length ≤ fuel →
      Chain.drainAux fuel ⟨a, b⟩ = a ++ b := by
  intro fuel
  induction fuel with
  | zero =>
    intro a b h
    have ha : a = [] := List.eq_nil_of_length_eq_zero (by omega)
    have hb : b = [] := List.eq_nil_of_length_eq_zero (by omega)
    subst ha
    subst hb
    rfl
  | succ n ih =>
    intro a b h
    cases a with
    | cons x xs =>
      rw [Chain.drainAux]
      simp only [Chain.next]
      rw [ih xs b (by simp at h ⊢; omega)]
      rfl
    | nil =>
      cases b with
      | cons y ys =>
        rw [Chain.drainAux]
        simp only [Chain.next]
        rw [ih [] ys (by simp at h ⊢; omega)]
        simp
      | nil =>
        rw [Chain.drainAux]
        simp [Chain.next]

/-- A concrete assembled class: the result of assembling `cdPlain` through
`dexTriv`. -/
def cPlainW : Class Nat Nat Nat Nat Nat Nat :=
  ⟨2, 0, 1, none, none, none, none, [], [], [], [], []⟩

/-- A concrete well-formed iterator state: 64 zero bytes, two records. -/
def iterW : ClassDefItemIter := ⟨List.replicate 64 0, 0, 2, Endian.little⟩

/-- The class-data item decoded from `srcBodyW`. -/
def itemBodyW : ClassDataItem Nat Nat := ⟨some [9], none, none, none⟩

/-- C1: the code INVERTS the claimed (and documented) sentinel polarity.
Evaluating the assembler at the decisive inputs: a record whose
superclass_idx equals NO_INDEX is assembled with super_class =
some NO_INDEX, and a record with the real superclass index 3 is assembled
with super_class = none — the claim wants none exactly at the sentinel and
some otherwise. -/
theorem c1_superclass_sentinel_inverted :
    (Class.try_from_dex dexTriv cdNoSuper).toOption.map Class.super_class
      = some (some NO_INDEX) ∧
    (Class.try_from_dex dexTriv cdHasSuper).toOption.map Class.super_class
      = some none := ⟨rfl, rfl⟩

/-- C2: when the collaborator lookups of the record succeed, a raw
access-flag bitmask with any bit outside the ten known flags makes assembly
fail with InvalidId naming the class index, and a bitmask inside the known
flags passes flag validation: assembly succeeds and keeps the bitmask. -/
theorem c2_unknown_flag_bit_invalid_id
    {Ty Fld Mth EF EM Val Ann Str : Type}
    (dex : DexAPI Ty Fld Mth EF EM Val Ann Str) (cd : ClassDefItem)
    (ty : Ty) (svals : List Val) (ann : Option Ann) (ifs : Option (List Ty))
    (sf : Option Str)
    (h1 : dex.get_type cd.class_idx = .ok ty)
    (h2 : dex.get_class_data cd.class_data_off = .ok none)
    (h3 : dex.get_static_values cd.static_values_off = .ok svals)
    (h4 : dex.get_annotations_directory_item cd.annotations_off = .ok ann)
    (h5 : dex.get_interfaces cd.interfaces_off = .ok ifs)
    (h6 : dex.get_source_file cd.source_file_idx = .ok sf) :
    (¬ cd.access_flags &&& AccessFlags.ALL = cd.access_flags →
      Class.try_from_dex dex cd
        = .error (Error.InvalidId
            ("Invalid Access flags in class " ++ toString cd.class_idx))) ∧
    (cd.access_flags &&& AccessFlags.ALL = cd.access_flags →
      ∃ c, Class.try_from_dex dex cd = .ok c
        ∧ c.access_flags = cd.access_flags) := by
  simp only [Class.try_from_dex, h1, h2, resolveClassData, h3, h4, h5, h6]
  constructor
  · intro hb
    rw [AccessFlags.from_bits.eq_def, if_neg hb]
  · intro hg
    rw [AccessFlags.from_bits.eq_def, if_pos hg]
    exact ⟨_, rfl, rfl⟩

theorem c2_witness :
    (dexTriv.get_type cdBadFlags.class_idx = .ok 0) ∧
    (dexTriv.get_class_data cdBadFlags.class_data_off = .ok none) ∧
    (dexTriv.get_static_values cdBadFlags.static_values_off = .ok []) ∧
    (dexTriv.get_annotations_directory_item cdBadFlags.annotations_off
      = .ok none) ∧
    (dexTriv.get_interfaces cdBadFlags.interfaces_off = .ok none) ∧
    (dexTriv.get_source_file cdBadFlags.source_file_idx = .ok none) ∧
    ((¬ cdBadFlags.access_flags &&& AccessFlags.ALL = cdBadFlags.access_flags →
      Class.try_from_dex dexTriv cdBadFlags
        = .error (Error.InvalidId
            ("Invalid Access flags in class "
              ++ toString cdBadFlags.class_idx))) ∧
     (cdBadFlags.access_flags &&& AccessFlags.ALL = cdBadFlags.access_flags →
      ∃ c, Class.try_from_dex dexTriv cdBadFlags = .ok c
        ∧ c.access_flags = cdBadFlags.access_flags)) :=
  ⟨rfl, rfl, rfl, rfl, rfl, rfl,
    c2_unknown_flag_bit_invalid_id dexTriv cdBadFlags 0 [] none none none
      rfl rfl rfl rfl rfl rfl⟩

/-- C3 counterexample: the assembler never compares the static-value array
against the static-field count; with the collaborator returning a
one-element array at the record's nonzero static-values offset and the
record having no class body (hence zero static fields), assembly succeeds
with 1 static value and 0 static fields, violating the claimed invariant. -/
theorem c3_counterexample_static_values_exceed_fields :
    (Class.try_from_dex dexOneStatic cdStaticsOnly).toOption.map
      (fun c => (c.static_values.length, c.static_fields.length))
      = some (1, 0) ∧ ¬ (1 ≤ 0) := ⟨rfl, by decide⟩

/-- C3 amended: the assembler does not enforce the bound; the static-value
array is whatever the static-value collaborator returns at the record's
offset. The bound does hold when the static-values offset is the absent
sentinel 0, because the collaborator contract makes offset 0 the empty
array. -/
theorem c3_static_values_bound_amended
    {Ty Fld Mth EF EM Val Ann Str : Type}
    (dex : DexAPI Ty Fld Mth EF EM Val Ann Str) (cd : ClassDefItem)
    (c : Class Ty Fld Mth Ann Str Val)
    (hsv0 : dex.get_static_values 0 = .ok [])
    (hoff : cd.static_values_off = 0)
    (h : Class.try_from_dex dex cd = .ok c) :
    c.static_values.length ≤ c.static_fields.length := by
  rw [Class.try_from_dex.eq_def, hoff, hsv0] at h
  split at h
  next => exact absurd h (by simp)
  next jtype hty =>
  split at h
  next => exact absurd h (by simp)
  next cdo hcdo =>
  split at h
  next => exact absurd h (by simp)
  next lists hlists =>
  split at h
  next => exact absurd h (by simp)
  next ann hann =>
  split at h
  next => exact absurd h (by simp)
  next ifs hifs =>
  split at h
  next => exact absurd h (by simp)
  next af haf =>
  split at h
  next => exact absurd h (by simp)
  next sf hsf =>
  split at h
  next => exact absurd h (by simp)
  next srcf hsrcf =>
  injection h with h
  subst h
  injection hann with he
  subst he
  simp

theorem c3_amended_witness :
    (dexTriv.get_static_values 0 = .ok []) ∧
    (cdPlain.static_values_off = 0) ∧
    (Class.try_from_dex dexTriv cdPlain = .ok cPlainW) ∧
    cPlainW.static_values.length ≤ cPlainW.static_fields.length :=
  ⟨rfl, rfl, rfl,
    c3_static_values_bound_amended dexTriv cdPlain cPlainW rfl rfl rfl⟩

/-- C4 counterexample: over a 16-byte buffer (half a record) with len 2, the
first call yields an error item and the count drops to 1, but the offset
stays 0 — and the following call reads at offset 0 AGAIN (yielding the same
error), not at the next record slot (offset 32) as the claim states. -/
theorem c4_counterexample_failed_read_rereads_same_slot :
    ClassDefItemIter.next ⟨List.replicate 16 0, 0, 2, Endian.little⟩
      = some (Except.error Error.Truncated,
          ⟨List.replicate 16 0, 0, 1, Endian.little⟩) ∧
    ClassDefItemIter.next ⟨List.replicate 16 0, 0, 1, Endian.little⟩
      = some (Except.error Error.Truncated,
          ⟨List.replicate 16 0, 0, 0, Endian.little⟩) := ⟨rfl, rfl⟩

/-- C4 amended: when a record read fails, the iterator yields the error
item without ending the sequence and decrements the remaining count, but
the scan offset is left unchanged (scroll's `gread_with` does not advance
on failure), so the following call reads at the same position again, not at
the next record slot. -/
theorem c4_error_item_continues_amended (s : ClassDefItemIter)
    (h0 : ¬ s.len = 0)
    (hfail : ClassDefItem.pread s.endian s.source s.offset = none) :
    ClassDefItemIter.next s
      = some (Except.error Error.Truncated, { s with len := s.len - 1 }) := by
  rw [ClassDefItemIter.next, if_neg h0, hfail]

theorem c4_amended_witness :
    (¬ (⟨[], 0, 1, Endian.little⟩ : ClassDefItemIter).len = 0) ∧
    ClassDefItem.pread Endian.little [] 0 = none ∧
    ClassDefItemIter.next ⟨[], 0, 1, Endian.little⟩
      = some (Except.error Error.Truncated, ⟨[], 0, 0, Endian.little⟩) :=
  ⟨by decide, rfl,
    c4_error_item_continues_amended ⟨[], 0, 1, Endian.little⟩ (by decide) rfl⟩

/-- C5: a record whose class-body offset is the absent sentinel 0 is
assembled (through a class-data lookup honoring the sentinel contract) with
all four member lists empty. -/
theorem c5_absent_body_empty_member_lists
    {Ty Fld Mth EF EM Val Ann Str : Type}
    (dex : DexAPI Ty Fld Mth EF EM Val Ann Str) (cd : ClassDefItem)
    (c : Class Ty Fld Mth Ann Str Val)
    (hcd0 : dex.get_class_data 0 = .ok none)
    (hoff : cd.class_data_off = 0)
    (h : Class.try_from_dex dex cd = .ok c) :
    c.static_fields = [] ∧ c.instance_fields = [] ∧
    c.direct_methods = [] ∧ c.virtual_methods = [] := by
  rw [Class.try_from_dex.eq_def, hoff, hcd0] at h
  simp only [resolveClassData] at h
  split at h
  next => exact absurd h (by simp)
  next jtype hty =>
  split at h
  next => exact absurd h (by simp)
  next svals hsv =>
  split at h
  next => exact absurd h (by simp)
  next ann hann =>
  split at h
  next => exact absurd h (by simp)
  next ifs hifs =>
  split at h
  next => exact absurd h (by simp)
  next af haf =>
  split at h
  next => exact absurd h (by simp)
  next sf hsf =>
  injection h with h
  subst h
  exact ⟨rfl, rfl, rfl, rfl⟩

theorem c5_witness :
    (dexTriv.get_class_data 0 = .ok none) ∧
    (cdPlain.class_data_off = 0) ∧
    (Class.try_from_dex dexTriv cdPlain = .ok cPlainW) ∧
    (cPlainW.static_fields = [] ∧ cPlainW.instance_fields = [] ∧
      cPlainW.direct_methods = [] ∧ cPlainW.virtual_methods = []) :=
  ⟨rfl, rfl, rfl,
    c5_absent_body_empty_member_lists dexTriv cdPlain cPlainW rfl rfl rfl⟩

/-- C6: an iterator over a buffer holding at least `len` full records
starting at its offset yields exactly `len` successful items and then ends
the sequence (a further call returns none). -/
theorem c6_wellformed_iterator_exhaustion (s : ClassDefItemIter)
    (h : s.offset + 32 * s.len ≤ s.source.length) :
    (ClassDefItemIter.run s).1.length = s.len ∧
    (∀ r ∈ (ClassDefItemIter.run s).1, ∃ it, r = Except.ok it) ∧
    (ClassDefItemIter.run s).2.next = none := by
  obtain ⟨hc1, hc2⟩ := ClassDefItemIter.runAux_count s.len s rfl
  have hc2b : (ClassDefItemIter.run s).2.len = 0 := hc2
  refine ⟨hc1, ClassDefItemIter.runAux_ok s.len s rfl h, ?_⟩
  rw [ClassDefItemIter.next, if_pos hc2b]

theorem c6_witness :
    (iterW.offset + 32 * iterW.len ≤ iterW.source.length) ∧
    ((ClassDefItemIter.run iterW).1.length = iterW.len ∧
      (∀ r ∈ (ClassDefItemIter.run iterW).1, ∃ it, r = Except.ok it) ∧
      (ClassDefItemIter.run iterW).2.next = none) :=
  ⟨by decide, c6_wellformed_iterator_exhaustion iterW (by decide)⟩

/-- C7: draining the `fields()` iterator yields exactly the static fields
in stored order followed by the instance fields in stored order — the
concatenation of the two lists — and likewise `methods()` yields the direct
methods followed by the virtual methods. -/
theorem c7_fields_methods_preserve_order
    {Ty Fld Mth Ann Str Val : Type} (c : Class Ty Fld Mth Ann Str Val) :
    Chain.collect (Class.fields c) = c.static_fields ++ c.instance_fields ∧
    Chain.collect (Class.methods c) = c.direct_methods ++ c.virtual_methods := by
  constructor
  · exact Chain.drainAux_concat _ _ _ le_rfl
  · exact Chain.drainAux_concat _ _ _ le_rfl

theorem c8_witness :
    (ClassDataItem.try_from_ctx srcBodyW byteEntry byteEntry
        = some (itemBodyW, 6)) ∧
    (6 ≤ srcBodyW.length ∧
      (∀ ext, ClassDataItem.try_from_ctx (srcBodyW.take 6 ++ ext) byteEntry
        byteEntry = some (itemBodyW, 6)) ∧
      ∃ p1 p2 p3 p4 a1 a2 a3 a4,
        ulebRead srcBodyW 0 = some p1 ∧ ulebRead srcBodyW p1.2 = some p2 ∧
        ulebRead srcBodyW p2.2 = some p3 ∧ ulebRead srcBodyW p3.2 = some p4 ∧
        encodedArray srcBodyW byteEntry p1.1 p4.2 = some a1 ∧
        encodedArray srcBodyW byteEntry p2.1 a1.2 = some a2 ∧
        encodedArray srcBodyW byteEntry p3.1 a2.2 = some a3 ∧
        encodedArray srcBodyW byteEntry p4.1 a3.2 = some a4 ∧
        itemBodyW = ⟨a1.1, a2.1, a3.1, a4.1⟩ ∧ 6 = a4.2) :=
  ⟨rfl, c8_class_data_decode_self_delimiting byteEntry byteEntry
    byteEntry_consumes byteEntry_consumes srcBodyW itemBodyW 6 rfl⟩

/-- C9 counterexample: the claimed mask 0x767F is wrong: the bit 0x20 lies
inside 0x767F, yet from_bits rejects 0x20 (it is not one of the ten known
flag bits), so success is NOT equivalent to the set bits lying in 0x767F. -/
theorem c9_counterexample_mask_not_0x767F :
    0x20 &&& 0x767F = 0x20 ∧ AccessFlags.from_bits 0x20 = none :=
  ⟨by decide, by decide⟩

/-- C9 amended: the ten known flags have the listed bit values, their union
is 0x761F (not 0x767F), from_bits succeeds exactly when every set bit of
the raw mask lies in 0x761F, and the undefined bits 0x20 through 0x100 and
0x800 are all rejected. -/
theorem c9_flag_mask_amended :
    (AccessFlags.PUBLIC = 0x1 ∧ AccessFlags.PRIVATE = 0x2 ∧
      AccessFlags.PROTECTED = 0x4 ∧ AccessFlags.STATIC = 0x8 ∧
      AccessFlags.FINAL = 0x10 ∧ AccessFlags.INTERFACE = 0x200 ∧
      AccessFlags.ABSTRACT = 0x400 ∧ AccessFlags.SYNTHETIC = 0x1000 ∧
      AccessFlags.ANNOTATION = 0x2000 ∧ AccessFlags.ENUM = 0x4000) ∧
    AccessFlags.ALL = 0x761F ∧
    (∀ raw : Nat, (AccessFlags.from_bits raw).isSome ↔ raw &&& 0x761F = raw) ∧
    AccessFlags.from_bits 0x20 = none ∧ AccessFlags.from_bits 0x40 = none ∧
    AccessFlags.from_bits 0x80 = none ∧ AccessFlags.from_bits 0x100 = none ∧
    AccessFlags.from_bits 0x800 = none := by
  refine ⟨by decide, by decide, fun raw => ?_, by decide, by decide,
    by decide, by decide, by decide⟩
  have hALL : AccessFlags.ALL = 0x761F := by decide
  rw [AccessFlags.from_bits.eq_def, hALL]
  split
  next hc => simp [hc]
  next hc => simp [hc]

/-- C10: over every buffer and starting state, the iterator yields exactly
`len` items (successes or errors) before ending the sequence, and an
iterator whose remaining count is 0 returns none immediately whatever the
buffer contains. -/
theorem c10_always_exactly_len_items (s : ClassDefItemIter) :
    (ClassDefItemIter.run s).1.length = s.len ∧
    (ClassDefItemIter.run s).2.next = none ∧
    (∀ (src : List Nat) (off : Nat) (e : Endian),
      ClassDefItemIter.next ⟨src, off, 0, e⟩ = none) := by
  obtain ⟨hc1, hc2⟩ := ClassDefItemIter.runAux_count s.len s rfl
  have hc2b : (ClassDefItemIter.run s).2.len = 0 := hc2
  refine ⟨hc1, ?_, fun src off e => rfl⟩
  rw [ClassDefItemIter.next, if_pos hc2b]

end DexCore
